import Mathlib

/-!
Verification of the redux proxy-action layer (`src/redux/ProxyReduxAction.ts`).

The TypeScript module is embedded shallowly:

* JavaScript data values (numbers, strings, `null`, `undefined`, booleans,
  plain objects) are the inductive `JSVal`; a property value that may also be
  a function is `HField`, whose `func` constructor carries the call behaviour
  `JSVal → JSVal → JSVal` together with the shape of the function's
  `prototype` object (`ProtoObj`), which is all `isGenerator` inspects.
* A handler object is `SagaHandler`: its `constructor.name`, the enumerable
  own properties seen by `for … in`, the own property names/values of its
  prototype (`Object.getOwnPropertyNames(Object.getPrototypeOf(handler))`),
  the reserved `default` field and the reserved, lazily initialised
  `actionNames` map (`none` models `null`/`undefined`).
* JS objects used as string-keyed tables are association lists where a later
  assignment is consed on the front and lookup takes the first match, so the
  last write wins, as for property assignment. An ES `Map` is an association
  list with `mapSet` giving `Map.prototype.set` semantics.
* JS string methods are modelled on the character lists underlying `String`:
  `jsReplace` is `String.prototype.replace` with a string search value
  (replace the first occurrence, or return the string unchanged when the
  search value does not occur), `jsEndsWith` / `jsStartsWith` / `jsIncludes`
  are the corresponding suffix / prefix / substring tests.
* Dispatching is modelled by its observable effect: `proxyDispatchBySaga`
  returns the single `ReduxAction` record (`{type, payload}`) delivered to
  the store, exactly as the source builds it.
-/

namespace ProxyRedux

/-- JavaScript data values (the function-free part of the dynamic type). -/
inductive JSVal where
  | jnull
  | jundef
  | jbool (b : Bool)
  | jnum (n : Int)
  | jstr (s : String)
  | jobj (fields : List (String × JSVal))

/-- Shape of a function's `prototype` object as far as `isGenerator` looks at
it: `protoCtorName` models `prototype.__proto__.constructor.name`, with
`none` standing for a `null`/`undefined` `__proto__`. -/
structure ProtoObj where
  protoCtorName : Option String

/-- A JS property value: either a function (with its call behaviour and its
`prototype` object) or a data value. -/
inductive HField where
  | func (call : JSVal → JSVal → JSVal) (proto : Option ProtoObj)
  | val (v : JSVal)

/-- `util.isFunction`. -/
def isFunctionH : HField → Bool
  | .func _ _ => true
  | .val _ => false

/-- `util.isNullOrUndefined`. -/
def isNullOrUndefinedH : HField → Bool
  | .val .jnull => true
  | .val .jundef => true
  | _ => false

/-- `util.isUndefined` (true only of `undefined`, not of `null`). -/
def isUndefinedH : HField → Bool
  | .val .jundef => true
  | _ => false

/-- `handle.prototype`: a function's `prototype` object; on a data value the
property access yields `undefined`, modelled as `none`. -/
def protoOf : HField → Option ProtoObj
  | .func _ p => p
  | .val _ => none

/-- Line 25: default suffix for saga action types. -/
def SAGA_ACTION_TYPE_SUFFIX : String := "__SAGA"

/-- Line 97: the replace-state sentinel string. -/
def USE_NEW_SATE : String := "__USE_NEW_SATE__"

/-- Lines 81–90, `isGenerator(prototype)`: `null`/`undefined` prototypes are
returned as-is (falsy, modelled `false`); otherwise the check is whether
`prototype.__proto__.constructor.name === "GeneratorFunctionPrototype"`. -/
def isGenerator (prototype : Option ProtoObj) : Bool :=
  match prototype with
  | none => false
  | some p =>
    match p.protoCtorName with
    | none => false
    | some n => n == "GeneratorFunctionPrototype"

/-- A handler object as `createReducerByHandler`/`createReduxHandler` see it. -/
structure SagaHandler where
  /-- `handler.constructor.name`. -/
  ctorName : String
  /-- The enumerable properties enumerated by `for (const key in handler)`,
  in enumeration order. -/
  ownKeys : List (String × HField)
  /-- `Object.getOwnPropertyNames(Object.getPrototypeOf(handler))` together
  with the value of each property on the prototype. -/
  protoProps : List (String × HField)
  /-- `handler.default` (`JSVal.jundef` when the property is absent). -/
  defaultVal : JSVal
  /-- `handler.actionNames`; `none` models `null`/`undefined`. -/
  actionNames : Option (List (String × String))

/-- A dispatched redux action `{type, payload}`. -/
structure ReduxAction where
  type : String
  payload : JSVal

/-- Does `pat` occur as a contiguous substring (at any position)? -/
def occursIn (pat : List Char) : List Char → Bool
  | [] => pat.isEmpty
  | c :: rest => pat.isPrefixOf (c :: rest) || occursIn pat rest

/-- `String.prototype.replace` with a string search value, on char lists:
replace the first (leftmost) occurrence of `pat` by `repl`; if `pat` does
not occur, return the list unchanged. -/
def replaceFirstL (pat repl : List Char) : List Char → List Char
  | [] => if pat.isEmpty then repl else []
  | c :: rest =>
    if pat.isPrefixOf (c :: rest) then repl ++ (c :: rest).drop pat.length
    else c :: replaceFirstL pat repl rest

/-- `s.replace(pat, repl)` (string search value: first occurrence only). -/
def jsReplace (s pat repl : String) : String :=
  ⟨replaceFirstL pat.data repl.data s.data⟩

/-- `s.endsWith(pat)`. -/
def jsEndsWith (s pat : String) : Bool :=
  pat.data.isSuffixOf s.data

/-- `s.startsWith(pat)`. -/
def jsStartsWith (s pat : String) : Bool :=
  pat.data.isPrefixOf s.data

/-- `s.includes(pat)`: substring containment. -/
def jsIncludes (s pat : String) : Bool :=
  occursIn pat.data s.data

/-- Lines 197–200, `getReducerTypeNameBySaga`: strips the saga suffix via
`type.replace(SAGA_ACTION_TYPE_SUFFIX, "")`. -/
def getReducerTypeNameBySaga (type : String) : String :=
  jsReplace type SAGA_ACTION_TYPE_SUFFIX ""

/-- Lines 207–210, `getSagaTypeNameByReducer`: appends the saga suffix. -/
def getSagaTypeNameByReducer (type : String) : String :=
  type ++ SAGA_ACTION_TYPE_SUFFIX

/-- Modelled from the spec: `convertFunctionNameByPrefix` lives in
`src/redux/FindNameStragegy.ts`, which is not part of the provided sources;
per spec §4.2 step 4 it strips the `"set"` prefix and lower-cases the first
remaining character (`setCount` → `count`). -/
def convertFunctionNameByPrefix (key : String) : String :=
  match (key.drop 3).data with
  | [] => ""
  | c :: rest => ⟨c.toLower :: rest⟩

/-- `Map.prototype.set`: replace the value at an existing key in place,
otherwise append the new entry. -/
def mapSet (m : List (String × String)) (k v : String) : List (String × String) :=
  match m with
  | [] => [(k, v)]
  | (k₂, v₂) :: rest => if k₂ == k then (k, v) :: rest else (k₂, v₂) :: mapSet rest k v

/-- The mutable state threaded through `createReducerByHandler`: the
`actions` table being built and the handler's `actionNames` map. -/
structure BuildState where
  actions : List (String × HField)
  actionNames : List (String × String)

/-- Lines 99–107, `addAction`: registers `actions[handlerName.key] = handle`;
when `key` starts with `"set"` and the derived getter name is a property of
the handler's prototype, records `getterName → key` in `actionNames`. -/
def addAction (st : BuildState) (handlerName key : String) (handle : HField)
    (protoNames : List String) : BuildState :=
  let actions := (handlerName ++ "." ++ key, handle) :: st.actions
  let actionNames :=
    if jsStartsWith key "set" then
      let getFuncName := convertFunctionNameByPrefix key
      if protoNames.contains getFuncName then mapSet st.actionNames getFuncName key
      else st.actionNames
    else st.actionNames
  ⟨actions, actionNames⟩

/-- Lines 134–140: one step of the `for (const key in handler)` loop, which
skips the two reserved fields and otherwise adds the property unconditionally
(no generator check on this path). -/
def ownStep (handlerName : String) (protoNames : List String)
    (st : BuildState) (kv : String × HField) : BuildState :=
  if kv.1 == "actionNames" || kv.1 == "default" then st
  else addAction st handlerName kv.1 kv.2 protoNames

/-- Lines 142–155: one step of the prototype-keys loop, which skips
`constructor`, skips `null`/`undefined` values, skips generator functions and
adds everything else. -/
def protoStep (handlerName : String) (protoNames : List String)
    (st : BuildState) (kv : String × HField) : BuildState :=
  if kv.1 == "constructor" then st
  else if isNullOrUndefinedH kv.2 then st
  else if isGenerator (protoOf kv.2) then st
  else addAction st handlerName kv.1 kv.2 protoNames

/-- Lines 114–155, the build phase of `createReducerByHandler`: initialise
`handler.actionNames` with a fresh empty map only when it is
`null`/`undefined`, then run the own-property loop followed by the
prototype-property loop. -/
def createReducerByHandler (h : SagaHandler) : BuildState :=
  let handlerName := h.ctorName
  let initNames := h.actionNames.getD []
  let protoNames := h.protoProps.map Prod.fst
  let st₁ := h.ownKeys.foldl (ownStep handlerName protoNames) ⟨[], initNames⟩
  h.protoProps.foldl (protoStep handlerName protoNames) st₁

/-- The handler after `createReducerByHandler` ran: its `actionNames` field
now holds the (initialised, possibly extended) map. -/
def updateHandler (h : SagaHandler) : SagaHandler :=
  { h with actionNames := some (createReducerByHandler h).actionNames }

/-- The strict-equality test `handle === USE_NEW_SATE` from line 177: only a
string value equal to the sentinel compares equal. -/
def isUseNewSate : HField → Bool
  | .val (.jstr s) => s == USE_NEW_SATE
  | _ => false

/-- JS property read `actions[type]`: first match in the assignment list
(assignments are consed on the front, so this is the last write). -/
def lookupAction (acts : List (String × HField)) (type : String) : Option HField :=
  match acts with
  | [] => none
  | (k, v) :: rest => if k == type then some v else lookupAction rest type

/-- Lines 160–188, the reducer returned by `createReducerByHandler`:
`state = defaultState` models the default parameter (the store passes
`undefined`, i.e. `none`, on initialisation). -/
def reducerFn (actions : List (String × HField)) (defaultState : JSVal)
    (state : Option JSVal) (action : ReduxAction) : JSVal :=
  let st := state.getD defaultState
  if jsEndsWith action.type SAGA_ACTION_TYPE_SUFFIX then st
  else
    match lookupAction actions action.type with
    | none => st
    | some handle =>
      if isUndefinedH handle then st
      else if isUseNewSate handle then action.payload
      else
        match handle with
        | .func f _ => f st action.payload
        | .val v => v

/-- Lines 230–250, `proxyDispatchBySaga`: choose the reducer tag for a pure
action, the saga-suffixed tag otherwise, and dispatch `{type, payload}` into
the store. Redux's `dispatch` returns the dispatched action, and exactly one
action is built per call, so the function is modelled by that action. -/
def proxyDispatchBySaga (type : String) (payload : JSVal) (pureAction : Bool) :
    ReduxAction :=
  let byReducer := if pureAction then type else getSagaTypeNameByReducer type
  ⟨byReducer, payload⟩

/-- Lines 48–57: the loop over `target.actionNames.values()` that upgrades
`isPureAction` when the accessed property name occurs among the map's
values; skipped entirely when `actionNames` is `null`/`undefined`. -/
def scanActionNames (actionNames : Option (List (String × String))) (p : String) :
    Bool :=
  match actionNames with
  | none => false
  | some m => m.any fun it => it.2 == p

/-- Lines 42–62, the `get` trap of the proxy returned by
`createReduxHandler`: any property access yields a function that, when
invoked, dispatches `"<ctorName>.<p>"` (suffixed unless pure) with the first
argument as payload (`params.headD .jundef` models `params[0]`, which is
`undefined` on a zero-argument call). -/
def facadeGet (target : SagaHandler) (pureAction : Bool) (p : String)
    (params : List JSVal) : ReduxAction :=
  let handlerName := target.ctorName
  let isPureAction := pureAction || scanActionNames target.actionNames p
  proxyDispatchBySaga (handlerName ++ "." ++ p) (params.headD JSVal.jundef)
    isPureAction

/-- Lines 34–73, `createReduxHandler`: the returned proxy, observed through
its `get` trap (every behaviour of the proxy is an invocation of the trap's
returned function on some property key and argument list). -/
def createReduxHandler (handler : SagaHandler) (pureAction : Bool) :
    String → List JSVal → ReduxAction :=
  facadeGet handler pureAction

/-- A façade that forgets the handler's own operations: used to state that
dispatch through the proxy never consults (let alone calls) them. -/
def eraseOps (h : SagaHandler) : SagaHandler :=
  { h with ownKeys := [], protoProps := [] }

/-- The spec's example handler `{ setCount(state, payload) { return payload },
count: 0 }` with identity name `H`: a plain object whose two properties are
own and enumerable; a plain (non-generator) function's
`prototype.__proto__.constructor.name` is `"Object"`. -/
def hPure : SagaHandler where
  ctorName := "H"
  ownKeys := [("setCount", .func (fun _ p => p) (some ⟨some "Object"⟩)),
              ("count", .val (.jnum 0))]
  protoProps := []
  defaultVal := .jundef
  actionNames := none

/-- The spec's replace-state example: the sentinel registered under `reset`,
so the table maps `"H.reset"` to the sentinel string. -/
def hReset : SagaHandler where
  ctorName := "H"
  ownKeys := [("reset", .val (.jstr USE_NEW_SATE))]
  protoProps := []
  defaultVal := .jundef
  actionNames := none

/-- A handler whose generator-shaped operation `fetchData` is an *own
enumerable* property (a plain object `{ *fetchData() {...} }`): in JS a
generator function is callable and calling it returns a generator object,
modelled here by an arbitrary distinguishable result value. -/
def hOwnGen : SagaHandler where
  ctorName := "H"
  ownKeys := [("fetchData",
    .func (fun _ _ => .jnum 42) (some ⟨some "GeneratorFunctionPrototype"⟩))]
  protoProps := [("constructor", .func (fun s _ => s) (some ⟨some "Object"⟩))]
  defaultVal := .jnum 0
  actionNames := none

/-- A handler with an initialised classification map, as left behind by a
previous `createReducerByHandler` call. -/
def hFac : SagaHandler where
  ctorName := "H"
  ownKeys := []
  protoProps := [("count", .func (fun s _ => s) (some ⟨some "Object"⟩))]
  defaultVal := .jnum 0
  actionNames := some [("count", "setCount")]

/-- A handler whose generator-shaped operation `fetchData` sits on the
prototype (the usual class-method layout), next to the `constructor`. -/
def hProtoGen : SagaHandler where
  ctorName := "H"
  ownKeys := []
  protoProps := [("fetchData",
      .func (fun _ _ => .jnum 42) (some ⟨some "GeneratorFunctionPrototype"⟩)),
    ("constructor", .func (fun s _ => s) (some ⟨some "Object"⟩))]
  defaultVal := .jnum 0
  actionNames := none

lemma mapSet_keys_mono (m : List (String × String)) (k v a : String)
    (h : a ∈ m.map Prod.fst) : a ∈ (mapSet m k v).map Prod.fst := by
  induction m with
  | nil => simp at h
  | cons kv rest ih =>
    obtain ⟨k₂, v₂⟩ := kv
    simp only [List.map_cons, List.mem_cons] at h
    by_cases hk : k₂ == k
    · simp only [mapSet, hk, if_true, List.map_cons, List.mem_cons]
      rcases h with h | h
      · exact Or.inl (by rw [h]; exact (beq_iff_eq.1 hk).symm ▸ rfl)
      · exact Or.inr h
    · simp only [mapSet, hk, if_false, Bool.false_eq_true, List.map_cons,
        List.mem_cons]
      rcases h with h | h
      · exact Or.inl h
      · exact Or.inr (ih h)

lemma addAction_names_mono (st : BuildState) (n k : String) (hf : HField)
    (pn : List String) (a : String) (h : a ∈ st.actionNames.map Prod.fst) :
    a ∈ (addAction st n k hf pn).actionNames.map Prod.fst := by
  unfold addAction
  dsimp only
  split
  · split
    · exact mapSet_keys_mono _ _ _ _ h
    · exact h
  · exact h

lemma ownStep_names_mono (n : String) (pn : List String) (st : BuildState)
    (kv : String × HField) (a : String) (h : a ∈ st.actionNames.map Prod.fst) :
    a ∈ (ownStep n pn st kv).actionNames.map Prod.fst := by
  unfold ownStep
  split
  · exact h
  · exact addAction_names_mono _ _ _ _ _ _ h

lemma protoStep_names_mono (n : String) (pn : List String) (st : BuildState)
    (kv : String × HField) (a : String) (h : a ∈ st.actionNames.map Prod.fst) :
    a ∈ (protoStep n pn st kv).actionNames.map Prod.fst := by
  unfold protoStep
  split
  · exact h
  split
  · exact h
  split
  · exact h
  · exact addAction_names_mono _ _ _ _ _ _ h

lemma foldl_ownStep_names_mono (n : String) (pn : List String)
    (l : List (String × HField)) :
    ∀ (st : BuildState) (a : String), a ∈ st.actionNames.map Prod.fst →
      a ∈ (l.foldl (ownStep n pn) st).actionNames.map Prod.fst := by
  induction l with
  | nil => intro st a h; simpa using h
  | cons kv rest ih =>
    intro st a h
    simp only [List.foldl_cons]
    exact ih _ _ (ownStep_names_mono n pn st kv a h)

lemma foldl_protoStep_names_mono (n : String) (pn : List String)
    (l : List (String × HField)) :
    ∀ (st : BuildState) (a : String), a ∈ st.actionNames.map Prod.fst →
      a ∈ (l.foldl (protoStep n pn) st).actionNames.map Prod.fst := by
  induction l with
  | nil => intro st a h; simpa using h
  | cons kv rest ih =>
    intro st a h
    simp only [List.foldl_cons]
    exact ih _ _ (protoStep_names_mono n pn st kv a h)

lemma addAction_actions (st : BuildState) (n k : String) (hf : HField)
    (pn : List String) :
    (addAction st n k hf pn).actions = (n ++ "." ++ k, hf) :: st.actions := rfl

lemma ownStep_actions_mem (n : String) (pn : List String) (st : BuildState)
    (kv : String × HField) (p : String × HField)
    (hp : p ∈ (ownStep n pn st kv).actions) :
    p ∈ st.actions ∨ p = (n ++ "." ++ kv.1, kv.2) := by
  unfold ownStep at hp
  split at hp
  · exact Or.inl hp
  · rw [addAction_actions] at hp
    simpa [or_comm] using hp

lemma protoStep_actions_mem (n : String) (pn : List String) (st : BuildState)
    (kv : String × HField) (p : String × HField)
    (hp : p ∈ (protoStep n pn st kv).actions) :
    p ∈ st.actions
      ∨ (isGenerator (protoOf kv.2) = false ∧ p = (n ++ "." ++ kv.1, kv.2)) := by
  unfold protoStep at hp
  split at hp
  · exact Or.inl hp
  split at hp
  · exact Or.inl hp
  split at hp
  · exact Or.inl hp
  · rename_i hgen
    rw [addAction_actions] at hp
    rcases List.mem_cons.1 hp with hp | hp
    · exact Or.inr ⟨by simpa using hgen, hp⟩
    · exact Or.inl hp

lemma foldl_ownStep_actions_mem (n : String) (pn : List String)
    (l : List (String × HField)) :
    ∀ (st : BuildState) (p : String × HField),
      p ∈ (l.foldl (ownStep n pn) st).actions →
      p ∈ st.actions ∨ ∃ kv ∈ l, p = (n ++ "." ++ kv.1, kv.2) := by
  induction l with
  | nil => intro st p hp; exact Or.inl (by simpa using hp)
  | cons kv rest ih =>
    intro st p hp
    simp only [List.foldl_cons] at hp
    rcases ih _ _ hp with hp | ⟨kv₂, hkv₂, hpe⟩
    · rcases ownStep_actions_mem n pn st kv p hp with hp | hpe
      · exact Or.inl hp
      · exact Or.inr ⟨kv, List.mem_cons_self _ _, hpe⟩
    · exact Or.inr ⟨kv₂, List.mem_cons_of_mem _ hkv₂, hpe⟩

lemma foldl_protoStep_actions_mem (n : String) (pn : List String)
    (l : List (String × HField)) :
    ∀ (st : BuildState) (p : String × HField),
      p ∈ (l.foldl (protoStep n pn) st).actions →
      p ∈ st.actions
        ∨ ∃ kv ∈ l, isGenerator (protoOf kv.2) = false
            ∧ p = (n ++ "." ++ kv.1, kv.2) := by
  induction l with
  | nil => intro st p hp; exact Or.inl (by simpa using hp)
  | cons kv rest ih =>
    intro st p hp
    simp only [List.foldl_cons] at hp
    rcases ih _ _ hp with hp | ⟨kv₂, hkv₂, hg, hpe⟩
    · rcases protoStep_actions_mem n pn st kv p hp with hp | ⟨hg, hpe⟩
      · exact Or.inl hp
      · exact Or.inr ⟨kv, List.mem_cons_self _ _, hg, hpe⟩
    · exact Or.inr ⟨kv₂, List.mem_cons_of_mem _ hkv₂, hg, hpe⟩

lemma lookupAction_eq_some_mem (acts : List (String × HField)) (t : String)
    (v : HField) (h : lookupAction acts t = some v) : (t, v) ∈ acts := by
  induction acts with
  | nil => simp [lookupAction] at h
  | cons kv rest ih =>
    obtain ⟨k, w⟩ := kv
    by_cases hk : k == t
    · simp only [lookupAction, hk, if_true, Option.some.injEq] at h
      exact (beq_iff_eq.1 hk) ▸ h ▸ List.mem_cons_self _ _
    · simp only [lookupAction, hk, if_false, Bool.false_eq_true] at h
      exact List.mem_cons_of_mem _ (ih h)

lemma tag_inj (n a b : String) (h : n ++ "." ++ a = n ++ "." ++ b) : a = b := by
  have hd := congrArg String.data h
  simp only [String.data_append] at hd
  exact String.ext (List.append_cancel_left hd)

lemma scanActionNames_eq_true (o : Option (List (String × String))) (p : String) :
    scanActionNames o p = true ↔ p ∈ (o.getD []).map Prod.snd := by
  cases o <;> simp [scanActionNames, List.any_eq_true]

/-- C1: invoking operation `n` through the façade of `createReduxHandler(H,
pureByDefault)` dispatches exactly one message whose payload is the first
argument; its tag is `"<Identity(H)>.n"` when `pureByDefault` is true or `n`
occurs among the values of `H.actionNames`, and
`toDeferredTag("<Identity(H)>.n")` otherwise. -/
theorem claim_C1 (h : SagaHandler) (pureAction : Bool) (p : String)
    (params : List JSVal) :
    (createReduxHandler h pureAction p params).payload = params.headD JSVal.jundef
    ∧ ((pureAction = true ∨ p ∈ (h.actionNames.getD []).map Prod.snd) →
        (createReduxHandler h pureAction p params).type = h.ctorName ++ "." ++ p)
    ∧ (pureAction = false → p ∉ (h.actionNames.getD []).map Prod.snd →
        (createReduxHandler h pureAction p params).type
          = getSagaTypeNameByReducer (h.ctorName ++ "." ++ p)) := by
  refine ⟨rfl, ?_, ?_⟩
  · intro hcase
    rcases hcase with hp | hmem
    · simp [createReduxHandler, facadeGet, proxyDispatchBySaga, hp]
    · have hscan := (scanActionNames_eq_true h.actionNames p).2 hmem
      simp [createReduxHandler, facadeGet, proxyDispatchBySaga, hscan]
  · intro hp hmem
    have hscan : scanActionNames h.actionNames p = false := by
      cases hx : scanActionNames h.actionNames p
      · rfl
      · exact absurd ((scanActionNames_eq_true h.actionNames p).1 hx) hmem
    simp [createReduxHandler, facadeGet, proxyDispatchBySaga, hp, hscan]

/-- C1 witness: on `hFac` (whose map holds `count ↦ setCount`), invoking
`setCount` dispatches the bare tag, and invoking `fetchData` dispatches the
suffixed tag; payloads are the first arguments. -/
theorem claim_C1_witness :
    (createReduxHandler hFac false "setCount" [JSVal.jnum 5]).type = "H.setCount"
    ∧ (createReduxHandler hFac false "setCount" [JSVal.jnum 5]).payload = JSVal.jnum 5
    ∧ (createReduxHandler hFac false "fetchData" []).type = "H.fetchData__SAGA"
    ∧ (createReduxHandler hFac false "fetchData" []).payload = JSVal.jundef :=
  ⟨(claim_C1 hFac false "setCount" [JSVal.jnum 5]).2.1 (Or.inr (by simp [hFac])),
   (claim_C1 hFac false "setCount" [JSVal.jnum 5]).1,
   (claim_C1 hFac false "fetchData" []).2.2 rfl (by simp [hFac]),
   (claim_C1 hFac false "fetchData" []).1⟩

/-- C10: every property access on the façade — including keys naming no
operation of the handler — dispatches a message tagged
`"<Identity>.<p>"` (possibly suffixed); the result never depends on the
handler's own operations (`eraseOps` removes them all), so the original
operations are never invoked. -/
theorem claim_C10 (h : SagaHandler) (pureAction : Bool) (p : String)
    (params : List JSVal) :
    createReduxHandler h pureAction p params
      = createReduxHandler (eraseOps h) pureAction p params
    ∧ ((createReduxHandler h pureAction p params).type = h.ctorName ++ "." ++ p
       ∨ (createReduxHandler h pureAction p params).type
           = getSagaTypeNameByReducer (h.ctorName ++ "." ++ p))
    ∧ (createReduxHandler h pureAction p params).payload
        = params.headD JSVal.jundef := by
  refine ⟨rfl, ?_, rfl⟩
  cases hb : pureAction || scanActionNames h.actionNames p
  · exact Or.inr (by simp [createReduxHandler, facadeGet, proxyDispatchBySaga, hb])
  · exact Or.inl (by simp [createReduxHandler, facadeGet, proxyDispatchBySaga, hb])

/-- C2: when the tag lacks the deferred suffix and the table maps it to a
callable `f`, the synthesized reducer returns `f state payload`. -/
theorem claim_C2 (acts : List (String × HField)) (d s : JSVal) (a : ReduxAction)
    (f : JSVal → JSVal → JSVal) (pr : Option ProtoObj)
    (hsuf : jsEndsWith a.type SAGA_ACTION_TYPE_SUFFIX = false)
    (hlook : lookupAction acts a.type = some (.func f pr)) :
    reducerFn acts d (some s) a = f s a.payload := by
  simp [reducerFn, hsuf, hlook, isUndefinedH, isUseNewSate]

/-- C2 witness: the spec's concrete instance — for the table built from
`hPure`, the message `{tag: "H.setCount", payload: 5}` takes state `0` to
state `5`. -/
theorem claim_C2_witness :
    jsEndsWith "H.setCount" SAGA_ACTION_TYPE_SUFFIX = false
    ∧ reducerFn (createReducerByHandler hPure).actions JSVal.jundef
        (some (JSVal.jnum 0)) ⟨"H.setCount", JSVal.jnum 5⟩ = JSVal.jnum 5 :=
  ⟨by decide,
   claim_C2 (createReducerByHandler hPure).actions JSVal.jundef (JSVal.jnum 0)
     ⟨"H.setCount", JSVal.jnum 5⟩ (fun _ p => p) (some ⟨some "Object"⟩)
     (by decide) rfl⟩

/-- C3: when the tag lacks the deferred suffix and the table maps it to the
replace-state sentinel `USE_NEW_SATE`, the reducer returns the payload
verbatim, discarding the prior state. -/
theorem claim_C3 (acts : List (String × HField)) (d s : JSVal) (a : ReduxAction)
    (hsuf : jsEndsWith a.type SAGA_ACTION_TYPE_SUFFIX = false)
    (hlook : lookupAction acts a.type = some (.val (.jstr USE_NEW_SATE))) :
    reducerFn acts d (some s) a = a.payload := by
  simp [reducerFn, hsuf, hlook, isUndefinedH, isUseNewSate, USE_NEW_SATE]

/-- C3 witness: the spec's concrete instance — with the sentinel registered
for `"H.reset"`, the message `{tag: "H.reset", payload: {x: 1}}` replaces the
prior state `99` by `{x: 1}` exactly. -/
theorem claim_C3_witness :
    jsEndsWith "H.reset" SAGA_ACTION_TYPE_SUFFIX = false
    ∧ reducerFn (createReducerByHandler hReset).actions JSVal.jundef
        (some (JSVal.jnum 99)) ⟨"H.reset", JSVal.jobj [("x", JSVal.jnum 1)]⟩
        = JSVal.jobj [("x", JSVal.jnum 1)] :=
  ⟨by decide, claim_C3 _ _ _ _ (by decide) rfl⟩

/-- C4: a message whose tag ends with the deferred suffix leaves the state
unchanged, regardless of the table contents (even if the suffixed tag is
present in the table). -/
theorem claim_C4 (acts : List (String × HField)) (d s : JSVal) (a : ReduxAction)
    (hsuf : jsEndsWith a.type SAGA_ACTION_TYPE_SUFFIX = true) :
    reducerFn acts d (some s) a = s := by
  simp [reducerFn, hsuf]

/-- C4 witness: even with the suffixed tag itself bound in the table, the
reducer returns the prior state. -/
theorem claim_C4_witness :
    jsEndsWith "H.fetchData__SAGA" SAGA_ACTION_TYPE_SUFFIX = true
    ∧ reducerFn [("H.fetchData__SAGA", .val (.jnum 7))] (JSVal.jnum 0)
        (some (JSVal.jnum 3)) ⟨"H.fetchData__SAGA", JSVal.jnum 1⟩ = JSVal.jnum 3 :=
  ⟨by decide, claim_C4 _ _ _ _ (by decide)⟩

/-- C5: an unsuffixed tag that is absent from the table is a silent no-op —
the reducer totally (without any failure case) returns the prior state. -/
theorem claim_C5 (acts : List (String × HField)) (d s : JSVal) (a : ReduxAction)
    (hsuf : jsEndsWith a.type SAGA_ACTION_TYPE_SUFFIX = false)
    (hlook : lookupAction acts a.type = none) :
    reducerFn acts d (some s) a = s := by
  simp [reducerFn, hsuf, hlook]

/-- C5 witness: the spec's concrete instance — `{tag: "H.unknown",
payload: 1}` against the table built from `hPure` leaves state `0`
unchanged. -/
theorem claim_C5_witness :
    jsEndsWith "H.unknown" SAGA_ACTION_TYPE_SUFFIX = false
    ∧ lookupAction (createReducerByHandler hPure).actions "H.unknown" = none
    ∧ reducerFn (createReducerByHandler hPure).actions JSVal.jundef
        (some (JSVal.jnum 0)) ⟨"H.unknown", JSVal.jnum 1⟩ = JSVal.jnum 0 :=
  ⟨by decide, rfl, claim_C5 _ _ _ _ (by decide) rfl⟩

/-- C9: `createReducerByHandler` initialises `actionNames` only when it is
`null`/`undefined`; when a map is already there, that map is the one the
build extends — after the call the handler's `actionNames` holds the build
result (never `null` again), and every key of the pre-existing map is still
a key of the resulting map (entries are only added, never dropped). -/
theorem claim_C9 (h : SagaHandler) :
    (updateHandler h).actionNames = some (createReducerByHandler h).actionNames
    ∧ ∀ m₀, h.actionNames = some m₀ →
        ∀ a ∈ m₀.map Prod.fst,
          a ∈ (createReducerByHandler h).actionNames.map Prod.fst := by
  refine ⟨rfl, ?_⟩
  intro m₀ hm a ha
  unfold createReducerByHandler
  dsimp only
  apply foldl_protoStep_names_mono
  apply foldl_ownStep_names_mono
  simpa [hm] using ha

/-- C9 witness: on `hFac`, whose map already holds `count ↦ setCount`, the
key `count` survives the build and the field ends up initialised. -/
theorem claim_C9_witness :
    "count" ∈ (createReducerByHandler hFac).actionNames.map Prod.fst
    ∧ (updateHandler hFac).actionNames
        = some (createReducerByHandler hFac).actionNames :=
  ⟨(claim_C9 hFac).2 [("count", "setCount")] rfl "count" (by simp),
   (claim_C9 hFac).1⟩

/-- C8 counterexample: the claim quantifies over own enumerable fields as
well, but the `for … in` loop (lines 134–140) adds own properties without
any generator check. For the plain-object handler `hOwnGen`, whose
generator-shaped `fetchData` is an own enumerable property, the tag
`"H.fetchData"` *is* in the transition table and the message
`{tag: "H.fetchData", payload: null}` changes state `0` to `42`. -/
theorem claim_C8_counterexample :
    isGenerator (protoOf (HField.func (fun _ _ => JSVal.jnum 42)
        (some ⟨some "GeneratorFunctionPrototype"⟩))) = true
    ∧ lookupAction (createReducerByHandler hOwnGen).actions "H.fetchData"
        = some (HField.func (fun _ _ => JSVal.jnum 42)
            (some ⟨some "GeneratorFunctionPrototype"⟩))
    ∧ reducerFn (createReducerByHandler hOwnGen).actions (JSVal.jnum 0)
        (some (JSVal.jnum 0)) ⟨"H.fetchData", JSVal.jnull⟩ = JSVal.jnum 42
    ∧ JSVal.jnum 42 ≠ JSVal.jnum 0 :=
  ⟨rfl, rfl, rfl, by simp⟩

/-- C8 (amended): a generator-shaped operation reachable only through the
prototype (its name is not an own enumerable field) is skipped when the
transition table is built, so its tag is absent and dispatching it leaves
any state unchanged. -/
theorem claim_C8_amended (h : SagaHandler) (k : String) (d s payload : JSVal)
    (hown : k ∉ h.ownKeys.map Prod.fst)
    (hgen : ∀ hf : HField, (k, hf) ∈ h.protoProps →
      isGenerator (protoOf hf) = true) :
    lookupAction (createReducerByHandler h).actions (h.ctorName ++ "." ++ k) = none
    ∧ reducerFn (createReducerByHandler h).actions d (some s)
        ⟨h.ctorName ++ "." ++ k, payload⟩ = s := by
  have hnone : lookupAction (createReducerByHandler h).actions
      (h.ctorName ++ "." ++ k) = none := by
    cases hx : lookupAction (createReducerByHandler h).actions
        (h.ctorName ++ "." ++ k) with
    | none => rfl
    | some v =>
      exfalso
      have hmem := lookupAction_eq_some_mem _ _ _ hx
      unfold createReducerByHandler at hmem
      dsimp only at hmem
      rcases foldl_protoStep_actions_mem _ _ _ _ _ hmem with
        hmem | ⟨kv, hkv, hgenf, hpe⟩
      · rcases foldl_ownStep_actions_mem _ _ _ _ _ hmem with
          hmem | ⟨kv, hkv, hpe⟩
        · simp at hmem
        · have hk : k = kv.1 := tag_inj _ _ _ (congrArg Prod.fst hpe)
          exact hown (hk ▸ List.mem_map_of_mem Prod.fst hkv)
      · have hk : k = kv.1 := tag_inj _ _ _ (congrArg Prod.fst hpe)
        have hmem₂ : (k, kv.2) ∈ h.protoProps := by rw [hk]; simpa using hkv
        rw [hgen kv.2 hmem₂] at hgenf
        exact absurd hgenf (by decide)
  refine ⟨hnone, ?_⟩
  cases hsuf : jsEndsWith (h.ctorName ++ "." ++ k) SAGA_ACTION_TYPE_SUFFIX
  · simp [reducerFn, hsuf, hnone]
  · simp [reducerFn, hsuf]

/-- C8 amended witness: on `hProtoGen` (generator-shaped `fetchData` on the
prototype only), `"H.fetchData"` is missing from the table and the reducer
leaves state `3` unchanged. -/
theorem claim_C8_amended_witness :
    lookupAction (createReducerByHandler hProtoGen).actions "H.fetchData" = none
    ∧ reducerFn (createReducerByHandler hProtoGen).actions (JSVal.jnum 0)
        (some (JSVal.jnum 3)) ⟨"H.fetchData", JSVal.jnull⟩ = JSVal.jnum 3 :=
  claim_C8_amended hProtoGen "fetchData" (JSVal.jnum 0) (JSVal.jnum 3)
    JSVal.jnull (by simp [hProtoGen])
    (by
      intro hf hmem
      simp only [hProtoGen, List.mem_cons, List.not_mem_nil, or_false,
        Prod.mk.injEq] at hmem
      rcases hmem with ⟨_, hhf⟩ | ⟨hbad, _⟩
      · rw [hhf]; rfl
      · exact absurd hbad (by decide))

lemma replaceFirstL_cons (pat repl : List Char) (c : Char) (rest : List Char) :
    replaceFirstL pat repl (c :: rest) =
      if pat.isPrefixOf (c :: rest) then repl ++ (c :: rest).drop pat.length
      else c :: replaceFirstL pat repl rest := rfl

/-- The suffix `"__SAGA"` is border-free: if it is a prefix of
`(c :: t) ++ ("__SAGA" ++ y)`, the match cannot straddle the boundary, so it
already is a prefix of `c :: t`. -/
lemma sfx_isPrefixOf_cons_append (c : Char) (t y : List Char)
    (h : List.isPrefixOf ['_', '_', 'S', 'A', 'G', 'A']
      ((c :: t) ++ (['_', '_', 'S', 'A', 'G', 'A'] ++ y)) = true) :
    List.isPrefixOf ['_', '_', 'S', 'A', 'G', 'A'] (c :: t) = true := by
  rcases t with _ | ⟨a, _ | ⟨b, _ | ⟨d, _ | ⟨e, _ | ⟨f, rest⟩⟩⟩⟩⟩
  · simp only [List.cons_append, List.nil_append, List.isPrefixOf,
      Bool.and_eq_true, eq_self_iff_true, and_true] at h
    exact absurd h.2.2.1 (by decide)
  · simp only [List.cons_append, List.nil_append, List.isPrefixOf,
      Bool.and_eq_true, eq_self_iff_true, and_true] at h
    exact absurd h.2.2.1 (by decide)
  · simp only [List.cons_append, List.nil_append, List.isPrefixOf,
      Bool.and_eq_true, eq_self_iff_true, and_true] at h
    exact absurd h.2.2.2.1 (by decide)
  · simp only [List.cons_append, List.nil_append, List.isPrefixOf,
      Bool.and_eq_true, eq_self_iff_true, and_true] at h
    exact absurd h.2.2.2.2.1 (by decide)
  · simp only [List.cons_append, List.nil_append, List.isPrefixOf,
      Bool.and_eq_true, eq_self_iff_true, and_true] at h
    exact absurd h.2.2.2.2.2 (by decide)
  · simp only [List.cons_append, List.nil_append, List.isPrefixOf,
      Bool.and_eq_true, eq_self_iff_true, and_true] at h ⊢
    exact h

/-- Replacing the first occurrence of `"__SAGA"` in `t ++ "__SAGA" ++ y` by
the empty string yields `t ++ y`, provided the suffix does not occur in
`t`. -/
lemma replaceFirst_strip (t : List Char) :
    ∀ y : List Char, occursIn ['_', '_', 'S', 'A', 'G', 'A'] t = false →
      replaceFirstL ['_', '_', 'S', 'A', 'G', 'A'] []
        (t ++ (['_', '_', 'S', 'A', 'G', 'A'] ++ y)) = t ++ y := by
  induction t with
  | nil =>
    intro y _
    rw [List.nil_append, List.nil_append]
    have hpre : List.isPrefixOf ['_', '_', 'S', 'A', 'G', 'A']
        ('_' :: '_' :: 'S' :: 'A' :: 'G' :: 'A' :: y) = true := by
      simp [List.isPrefixOf]
    show replaceFirstL ['_', '_', 'S', 'A', 'G', 'A'] []
        ('_' :: '_' :: 'S' :: 'A' :: 'G' :: 'A' :: y) = y
    rw [replaceFirstL_cons, if_pos hpre]
    rfl
  | cons c t ih =>
    intro y h
    rw [occursIn] at h
    simp only [Bool.or_eq_false_iff] at h
    obtain ⟨hpre, hocc⟩ := h
    have hnp : List.isPrefixOf ['_', '_', 'S', 'A', 'G', 'A']
        ((c :: t) ++ (['_', '_', 'S', 'A', 'G', 'A'] ++ y)) = false := by
      cases hx : List.isPrefixOf ['_', '_', 'S', 'A', 'G', 'A']
          ((c :: t) ++ (['_', '_', 'S', 'A', 'G', 'A'] ++ y))
      · rfl
      · exact absurd (sfx_isPrefixOf_cons_append c t y hx) (by simp [hpre])
    rw [List.cons_append] at hnp
    show replaceFirstL ['_', '_', 'S', 'A', 'G', 'A'] []
        (c :: (t ++ (['_', '_', 'S', 'A', 'G', 'A'] ++ y))) = c :: (t ++ y)
    rw [replaceFirstL_cons, if_neg (by rw [hnp]; simp)]
    rw [ih y hocc]

/-- When the suffix does not occur at all, the replacement is the
identity. -/
lemma replaceFirst_of_not_occurs (t : List Char)
    (h : occursIn ['_', '_', 'S', 'A', 'G', 'A'] t = false) :
    replaceFirstL ['_', '_', 'S', 'A', 'G', 'A'] [] t = t := by
  induction t with
  | nil => rfl
  | cons c t ih =>
    rw [occursIn] at h
    simp only [Bool.or_eq_false_iff] at h
    obtain ⟨hpre, hocc⟩ := h
    rw [replaceFirstL_cons, if_neg (by rw [hpre]; simp)]
    rw [ih hocc]

/-- C6: for any tag not containing `"__SAGA"` as a substring,
`getReducerTypeNameBySaga (getSagaTypeNameByReducer t) = t` — the codec
round-trips. -/
theorem claim_C6 (t : String)
    (h : jsIncludes t SAGA_ACTION_TYPE_SUFFIX = false) :
    getReducerTypeNameBySaga (getSagaTypeNameByReducer t) = t := by
  obtain ⟨td⟩ := t
  have h' : occursIn ['_', '_', 'S', 'A', 'G', 'A'] td = false := h
  have hx := replaceFirst_strip td [] h'
  rw [List.append_nil, List.append_nil] at hx
  show String.mk (replaceFirstL ['_', '_', 'S', 'A', 'G', 'A'] []
      (td ++ ['_', '_', 'S', 'A', 'G', 'A'])) = String.mk td
  rw [hx]

/-- C6 witness: the round-trip at the concrete suffix-free tag
`"MyHandler.setCount"`. -/
theorem claim_C6_witness :
    jsIncludes "MyHandler.setCount" SAGA_ACTION_TYPE_SUFFIX = false
    ∧ getReducerTypeNameBySaga (getSagaTypeNameByReducer "MyHandler.setCount")
        = "MyHandler.setCount" :=
  ⟨by decide, claim_C6 "MyHandler.setCount" (by decide)⟩

/-- C7 counterexample: `"a__SAGAb"` does not end with the suffix, yet
`getReducerTypeNameBySaga` does not return it unchanged — JS
`String.replace` with a string search value removes the *first* occurrence
anywhere, so the result is `"ab"`. -/
theorem claim_C7_counterexample :
    jsEndsWith "a__SAGAb" SAGA_ACTION_TYPE_SUFFIX = false
    ∧ getReducerTypeNameBySaga "a__SAGAb" = "ab"
    ∧ "ab" ≠ "a__SAGAb" :=
  ⟨by decide, by decide, by decide⟩

/-- C7 (amended): `getReducerTypeNameBySaga` removes the *first* occurrence
of the suffix anywhere in the tag — for `t = u ++ "__SAGA" ++ v` with no
occurrence in `u` it returns `u ++ v` — and returns the tag unchanged
exactly when the suffix does not occur in it at all (an idempotent no-op,
not an error). -/
theorem claim_C7_amended (t u v : String) :
    (jsIncludes t SAGA_ACTION_TYPE_SUFFIX = false →
      getReducerTypeNameBySaga t = t)
    ∧ (t = u ++ SAGA_ACTION_TYPE_SUFFIX ++ v →
        jsIncludes u SAGA_ACTION_TYPE_SUFFIX = false →
        getReducerTypeNameBySaga t = u ++ v) := by
  constructor
  · intro h
    obtain ⟨td⟩ := t
    have h' : occursIn ['_', '_', 'S', 'A', 'G', 'A'] td = false := h
    show String.mk (replaceFirstL ['_', '_', 'S', 'A', 'G', 'A'] [] td)
        = String.mk td
    rw [replaceFirst_of_not_occurs td h']
  · rintro rfl h
    obtain ⟨ud⟩ := u
    obtain ⟨vd⟩ := v
    have h' : occursIn ['_', '_', 'S', 'A', 'G', 'A'] ud = false := h
    have hx := replaceFirst_strip ud vd h'
    show String.mk (replaceFirstL ['_', '_', 'S', 'A', 'G', 'A'] []
        ((ud ++ ['_', '_', 'S', 'A', 'G', 'A']) ++ vd)) = String.mk (ud ++ vd)
    rw [List.append_assoc, hx]

/-- C7 amended witness: the first mid-string occurrence is removed
(`"a__SAGAb"` → `"ab"`), and a suffix-free tag is left unchanged. -/
theorem claim_C7_amended_witness :
    jsIncludes "a" SAGA_ACTION_TYPE_SUFFIX = false
    ∧ getReducerTypeNameBySaga "a__SAGAb" = "ab"
    ∧ getReducerTypeNameBySaga "xy" = "xy" :=
  ⟨by decide,
   (claim_C7_amended "a__SAGAb" "a" "b").2 (by decide) (by decide),
   (claim_C7_amended "xy" "x" "y").1 (by decide)⟩

end ProxyRedux
